import Mathlib

/-!
Verification of the Generations automation system against its specification.

The repository is a TypeScript/Next.js frontend plus a documented FastAPI
backend.  The frontend components present under `src/` (StepConfigure,
StepProcess, StepDownload, ManualRun, ScheduleConfig, Dashboard, lib/api)
are embedded directly from their source.  The backend job pipeline,
retry policy, session keep-alive, scheduler and client-processing loop are
not present under `src/` (only their documentation and callers are), so
those parts are modelled from the specification; each such definition is
marked `Modelled from the spec:` in its doc comment.
-/

namespace GenAuto

/-! ## Job pipeline state machine (spec §4.2, §3) -/

/-- Modelled from the spec: the AutomationPipeline status values
`Queued → Authenticating → Exporting → Converting → Enriching → Generating
→ Completed` with a terminal `Failed`; the backend pipeline module is not
under `src/`. -/
inductive JobStatus where
  | queued
  | authenticating
  | exporting
  | converting
  | enriching
  | generating
  | completed
  | failed
deriving DecidableEq

/-- Modelled from the spec: the Job record of §3 with its status, counters
`{total, processed, failed}`, append-only logs, optional artifact and error
message; the backend JobStore module is not under `src/`. -/
structure Job where
  status : JobStatus
  clientLimit : Nat
  total : Nat
  processed : Nat
  failed : Nat
  logs : List String
  errorMessage : Option String
  artifact : Option String
deriving DecidableEq

/-- Modelled from the spec: a freshly submitted Job is `queued` with zero
counters and empty logs. -/
def newJob (clientLimit : Nat) : Job :=
  { status := .queued
    clientLimit := clientLimit
    total := 0
    processed := 0
    failed := 0
    logs := []
    errorMessage := none
    artifact := none }

/-- Modelled from the spec: the `clients_to_process` computation of the
backend `process_clients_from_json` (quoted verbatim in the repository
documentation, the module itself is not under `src/`): `max_clients == 0`
processes all clients, otherwise `min(total_clients, max_clients)`. -/
def clients_to_process (total_clients max_clients : Nat) : Nat :=
  if max_clients = 0 then total_clients else min total_clients max_clients

/-- Modelled from the spec: the pipeline events.  `convertOk` carries the
record count of the export; `recordEnriched` / `recordFailed` are the two
outcomes of one iteration of the per-record enrichment loop;
`sessionLost` is a fatal session loss inside `Enriching`. -/
inductive Ev where
  | pickUp
  | authOk
  | authFail
  | exportOk
  | exportFail
  | convertOk (recordCount : Nat)
  | convertFail
  | recordEnriched
  | recordFailed (msg : String)
  | sessionLost
  | enrichDone
  | generateOk (path : String)
  | generateFail
deriving DecidableEq

/-- Modelled from the spec: the transition rules of §4.2.  `counters.total`
is set at `Converting → Enriching` to `min(recordCount, clientLimit)` when
`clientLimit > 0` and to `recordCount` otherwise; the per-record events
only fire while fewer than `total` records have been handled (the loop
iterates records up to `counters.total`); a single record's exhausted
retries increments `failed`, appends a log entry and stays in `Enriching`. -/
def jobStep (e : Ev) (j : Job) : Option Job :=
  match e, j.status with
  | .pickUp, .queued => some { j with status := .authenticating }
  | .authOk, .authenticating => some { j with status := .exporting }
  | .authFail, .authenticating =>
      some { j with status := .failed, errorMessage := some "authentication failed" }
  | .exportOk, .exporting => some { j with status := .converting }
  | .exportFail, .exporting =>
      some { j with status := .failed, errorMessage := some "export failed" }
  | .convertOk rc, .converting =>
      some { j with status := .enriching, total := clients_to_process rc j.clientLimit }
  | .convertFail, .converting =>
      some { j with status := .failed, errorMessage := some "conversion failed" }
  | .recordEnriched, .enriching =>
      if j.processed + j.failed < j.total then
        some { j with processed := j.processed + 1 }
      else none
  | .recordFailed msg, .enriching =>
      if j.processed + j.failed < j.total then
        some { j with failed := j.failed + 1, logs := j.logs ++ [msg] }
      else none
  | .sessionLost, .enriching =>
      some { j with status := .failed, errorMessage := some "session lost" }
  | .enrichDone, .enriching => some { j with status := .generating }
  | .generateOk p, .generating =>
      some { j with status := .completed, artifact := some p }
  | .generateFail, .generating =>
      some { j with status := .failed, errorMessage := some "generation failed" }
  | _, _ => none

/-- Reachability along legal pipeline steps. -/
inductive Reachable : Job → Job → Prop
  | refl (j : Job) : Reachable j j
  | tail {j j' j'' : Job} (e : Ev) :
      Reachable j j' → jobStep e j' = some j'' → Reachable j j''

/-- Statuses at or after the start of the `Enriching` stage (once the
pipeline is in this set it stays in it). -/
def enrichingBegun : JobStatus → Bool
  | .enriching => true
  | .generating => true
  | .completed => true
  | .failed => true
  | _ => false

/-! ## RetryPolicy (spec §4.4) -/

/-- Modelled from the spec: one invocation of a flaky operation either
succeeds, raises a classified-transient failure, or raises a
classified-fatal failure; the backend retry module is not under `src/`. -/
inductive Outcome (α : Type) where
  | ok (v : α)
  | transient (msg : String)
  | fatal (msg : String)
deriving DecidableEq

/-- Modelled from the spec: the result of running an operation under the
RetryPolicy: success, an immediately propagated fatal error, or the
distinguished "retries exhausted" error. -/
inductive RetryResult (α : Type) where
  | ok (v : α)
  | fatalError (msg : String)
  | retriesExhausted
deriving DecidableEq

variable {α : Type}

/-- Modelled from the spec: the retry loop.  `made` counts invocations
already performed, `remaining` the attempts left; the operation is a
function of the invocation index.  Returns the result together with the
number of invocations performed. -/
def retryAux (op : Nat → Outcome α) : Nat → Nat → RetryResult α × Nat
  | made, 0 => (.retriesExhausted, made)
  | made, remaining + 1 =>
    match op made with
    | .ok v => (.ok v, made + 1)
    | .fatal m => (.fatalError m, made + 1)
    | .transient _ => retryAux op (made + 1) remaining

/-- Modelled from the spec: `RetryPolicy` with `maxAttempts` bound applied
to an operation; the backend retry module is not under `src/`. -/
def retryPolicy (maxAttempts : Nat) (op : Nat → Outcome α) : RetryResult α × Nat :=
  retryAux op 0 maxAttempts

/-! ## RemoteSession keep-alive (spec §4.3) -/

/-- Modelled from the spec: the RemoteSession record with last-activity
timestamp, idle threshold and re-login attempt counter; the backend
session manager module is not under `src/`. -/
structure RemoteSession where
  lastActivityAt : Int
  idleThreshold : Int
  reloginAttemptCount : Nat
deriving DecidableEq

/-- Outcome of one `keep_alive` call: whether a liveness probe was
performed, how many re-authentication attempts were made, whether the
session was declared dead, and the updated session. -/
structure KeepAliveResult where
  probed : Bool
  reauthAttempts : Nat
  dead : Bool
  sess : RemoteSession
deriving DecidableEq

/-- Modelled from the spec: bounded re-authentication; tries up to
`remaining` attempts, returning the number of attempts made and whether
one succeeded. -/
def reauthTry (reauthOk : Nat → Bool) : Nat → Nat → Nat × Bool
  | 0, made => (made, false)
  | remaining + 1, made =>
    if reauthOk made then (made + 1, true) else reauthTry reauthOk remaining (made + 1)

/-- Modelled from the spec: `keepAlive()` of §4.3 — probe only when
`now - lastActivityAt > idleThreshold`; on probe failure re-authenticate
up to 3 attempts; if all fail the session is dead.  Successful
re-authentication resets `reloginAttemptCount` to 0.  The backend session
manager module is not under `src/`.  The probe and re-authentication
outcomes are supplied as oracles. -/
def keep_alive (now : Int) (probeOk : Bool) (reauthOk : Nat → Bool)
    (s : RemoteSession) : KeepAliveResult :=
  if s.idleThreshold < now - s.lastActivityAt then
    if probeOk then
      { probed := true, reauthAttempts := 0, dead := false
        sess := { s with lastActivityAt := now } }
    else
      match reauthTry reauthOk 3 0 with
      | (att, true) =>
        { probed := true, reauthAttempts := att, dead := false
          sess := { s with reloginAttemptCount := 0, lastActivityAt := now } }
      | (att, false) =>
        { probed := true, reauthAttempts := att, dead := true, sess := s }
  else
    { probed := false, reauthAttempts := 0, dead := false, sess := s }

/-- Modelled from the spec: `markActivity()` updates `lastActivityAt`. -/
def markActivity (now : Int) (s : RemoteSession) : RemoteSession :=
  { s with lastActivityAt := now }

/-! ## Scheduled triggers (spec §6; `core/scheduler.py` is not under `src/`) -/

/-- The two scheduled trigger kinds. -/
inductive ScheduleKind where
  | weekly
  | monthly
deriving DecidableEq

/-- The payload a trigger submits: a date range (days since epoch) and a
client limit. -/
structure JobRequest where
  startDate : Int
  endDate : Int
  maxClients : Nat
deriving DecidableEq

/-- Modelled from the spec: the scheduler computes
`end_date = datetime.now()` and `start_date = end_date - timedelta(days=7)`
(weekly) or `days=30` (monthly), and always submits with `max_clients = 0`;
`core/scheduler.py` is not under `src/`.  Time is measured in days. -/
def scheduledSubmit (k : ScheduleKind) (now : Int) : JobRequest :=
  match k with
  | .weekly => { startDate := now - 7, endDate := now, maxClients := 0 }
  | .monthly => { startDate := now - 30, endDate := now, maxClients := 0 }

/-! ## StepConfigure date validation (src/unnamed/part_000) -/

/-- A calendar date as the JS code sees it: `year` (getFullYear),
`month` (getMonth, 0-based) and `day` (getDate).  JS `Date` comparison at
day granularity is lexicographic on these fields. -/
structure CalDate where
  year : Int
  month : Nat
  day : Nat
deriving DecidableEq

/-- Strict order on calendar dates (JS `<` on `Date` at day granularity). -/
def dateLt (a b : CalDate) : Bool :=
  if a.year = b.year then
    if a.month = b.month then decide (a.day < b.day)
    else decide (a.month < b.month)
  else decide (a.year < b.year)

/-- `twoYearsAgo`: `setFullYear(today.getFullYear() - 2)` keeps month and
day and subtracts two from the year. -/
def subTwoYears (d : CalDate) : CalDate :=
  { d with year := d.year - 2 }

/-- `String(n).padStart(2, '0')`. -/
def pad2 (n : Nat) : String :=
  let s := toString n
  if s.length < 2 then "0" ++ s else s

/-- The `formatDate` helper of StepConfigure: zero-padded `MM/DD/YYYY`. -/
def formatDate (d : CalDate) : String :=
  pad2 (d.month + 1) ++ "/" ++ pad2 d.day ++ "/" ++ toString d.year

/-- Accumulator loop reading a decimal digit string. -/
def jsParseIntDigitsAux (l : List Char) (acc : Nat) : Nat :=
  match l with
  | [] => acc
  | c :: cs => jsParseIntDigitsAux cs (acc * 10 + (c.toNat - 48))

/-- JS `parseInt` restricted to the unsigned decimal strings the
StepConfigure select can produce: `none` models `NaN` for an empty or
non-numeric string. -/
def jsParseInt (s : String) : Option Int :=
  match s.toList with
  | [] => none
  | l =>
    if l.all (fun c => decide ('0' ≤ c) && decide (c ≤ '9')) then
      some (jsParseIntDigitsAux l 0)
    else none

/-- The `client_limit` sent by StepConfigure:
`clientLimit === 'all' ? 999 : parseInt(clientLimit)`; the select offers
"5", "10" and "all". -/
def stepConfigureClientLimit (sel : String) : Int :=
  if sel = "all" then 999 else (jsParseInt sel).getD 0

/-- The payload passed to `onSuccess` by StepConfigure. -/
structure SubmitOutput where
  start_date : String
  end_date : String
  client_limit : Int
deriving DecidableEq

/-- `handleSubmit` of StepConfigure (src/unnamed/part_000): validates the
dates in source order and either records an error message or calls
`onSuccess` with the formatted payload. -/
def handleSubmit (startDate endDate today : CalDate) (clientLimit : String) :
    Except String SubmitOutput :=
  if dateLt today endDate then .error "End date cannot be in the future"
  else if dateLt endDate startDate then .error "Start date must be before end date"
  else if dateLt startDate (subTwoYears today) then
    .error "Start date cannot be more than 2 years in the past"
  else
    .ok { start_date := formatDate startDate
          end_date := formatDate endDate
          client_limit := stepConfigureClientLimit clientLimit }

/-! ## SSE consumer loop of `runManualAutomation` (src/frontend/lib/api.ts) -/

/-- How the byte-level consumer loop of `runManualAutomation` ends: the
reader reports `done` without a status event, `onComplete` fires with a
status, `JSON.parse` throws on a malformed or truncated `data:` line
(aborting the whole stream), or a truthy `data.error` payload is thrown. -/
inductive StreamEnd where
  | endOfStream
  | completed (status : String) (file_path run_id : Option String)
  | parseError
  | threwError (msg : String)
deriving DecidableEq

/-- Skip JSON whitespace (the space character; these payloads use no
other whitespace). -/
def skipSpaces : List Char → List Char
  | [] => []
  | c :: cs => if c = ' ' then skipSpaces cs else c :: cs

/-- Body of a JSON string after the opening quote: reads up to the closing
quote; escape sequences do not occur in these payloads and are treated as
a parse failure, as is a missing closing quote (a truncated line). -/
def parseJStringAux : List Char → List Char → Option (String × List Char)
  | [], _ => none
  | c :: cs, acc =>
    if c = '"' then some (String.mk acc.reverse, cs)
    else if c = '\\' then none
    else parseJStringAux cs (c :: acc)

/-- A JSON string literal. -/
def parseJString (l : List Char) : Option (String × List Char) :=
  match l with
  | [] => none
  | c :: cs => if c = '"' then parseJStringAux cs [] else none

/-- The members of a JSON object after the opening brace: a comma-separated
sequence of string-keyed string members up to the closing brace.  `fuel`
bounds the recursion and always exceeds the member count at the call
site. -/
def parseMembersAux : Nat → List Char → Option (List (String × String) × List Char)
  | 0, _ => none
  | fuel + 1, cs =>
    match parseJString (skipSpaces cs) with
    | none => none
    | some (k, cs1) =>
      match skipSpaces cs1 with
      | [] => none
      | c2 :: cs2 =>
        if c2 = ':' then
          match parseJString (skipSpaces cs2) with
          | none => none
          | some (v, cs3) =>
            match skipSpaces cs3 with
            | [] => none
            | c4 :: cs4 =>
              if c4 = ',' then
                match parseMembersAux fuel cs4 with
                | some (ms, cs5) => some ((k, v) :: ms, cs5)
                | none => none
              else if c4 = '}' then some ([(k, v)], cs4)
              else none
        else none

/-- `JSON.parse` on the flat string-valued objects this stream carries
(the `log` / `status` / `file_path` / `run_id` / `error` payloads): the
parsed member list, or `none` exactly where `JSON.parse` throws — on
truncated input such as a `data:` line split across reads, on trailing
garbage, and on any shape these payloads do not use. -/
def jsonParse (s : String) : Option (List (String × String)) :=
  match skipSpaces s.toList with
  | [] => none
  | c :: cs =>
    if c = '{' then
      match skipSpaces cs with
      | [] => none
      | c2 :: cs2 =>
        if c2 = '}' then (if skipSpaces cs2 = [] then some [] else none)
        else
          match parseMembersAux s.toList.length (c2 :: cs2) with
          | some (ms, rest) => if skipSpaces rest = [] then some ms else none
          | none => none
    else none

/-- JS property lookup on a parsed object (with duplicate keys the last
one wins, as in `JSON.parse`). -/
def jsField (ms : List (String × String)) (k : String) : Option String :=
  (ms.reverse.find? (fun p => p.1 == k)).map (fun p => p.2)

/-- JS truthiness of an optional string field: an absent field and the
empty string are falsy. -/
def jsTruthy : Option String → Bool
  | some s => decide (s ≠ "")
  | none => false

/-- `line.startsWith('data: ')`. -/
def leadsWithData : List Char → Bool
  | 'd' :: 'a' :: 't' :: 'a' :: ':' :: ' ' :: _ => true
  | _ => false

/-- JS `String.prototype.split` with a single-character separator. -/
def splitOnChar (c : Char) : List Char → List (List Char)
  | [] => [[]]
  | x :: xs =>
    if x = c then [] :: splitOnChar c xs
    else
      match splitOnChar c xs with
      | [] => [[x]]
      | h :: t => (x :: h) :: t

/-- `chunk.split('\n')`: split a decoded chunk into its lines. -/
def jsSplitNewline (s : String) : List String :=
  (splitOnChar '\n' s.toList).map (fun l => String.mk l)

/-- The body of the per-line loop of `runManualAutomation`: lines not
starting with `data: ` are skipped; otherwise `JSON.parse` runs on
`line.substring(6)` — throwing on failure — then `onLog` fires when
`data.log` is truthy, `onComplete` fires and the function returns when
`data.status` is truthy, and `data.error` is thrown when truthy. -/
def processLine (line : String) (logs : List String) :
    List String × Option StreamEnd :=
  if leadsWithData line.toList then
    match jsonParse (String.mk (line.toList.drop 6)) with
    | none => (logs, some .parseError)
    | some ms =>
      let logv := jsField ms "log"
      let logs1 := if jsTruthy logv then logs ++ [logv.getD ""] else logs
      let stv := jsField ms "status"
      if jsTruthy stv then
        (logs1, some (.completed (stv.getD "") (jsField ms "file_path") (jsField ms "run_id")))
      else
        let errv := jsField ms "error"
        if jsTruthy errv then (logs1, some (.threwError (errv.getD "")))
        else (logs1, none)
  else (logs, none)

/-- The loop over the lines of one chunk, stopped early by the `return`
after `onComplete` or by a thrown exception. -/
def processLines : List String → List String → List String × Option StreamEnd
  | [], logs => (logs, none)
  | line :: rest, logs =>
    match processLine line logs with
    | (logs1, some e) => (logs1, some e)
    | (logs1, none) => processLines rest logs1

/-- The reader loop of `runManualAutomation` over the decoded text of the
successive `reader.read()` chunks: each chunk is split on newlines and its
lines processed in order, with no buffering of a partial trailing line —
a `data:` line split across two reads is seen as two separate lines.
Returns the log entries delivered to `onLog`, in order, and how the loop
ended.  Byte-level UTF-8 fragmentation by `decoder.decode` without
streaming mode is a further instance of the same fragmentation failure
and is not modelled separately; chunks carry the decoded text. -/
def runManualAutomationStream :
    List String → List String → List String × StreamEnd
  | [], logs => (logs, .endOfStream)
  | chunk :: chunks, logs =>
    match processLines (jsSplitNewline chunk) logs with
    | (logs1, some e) => (logs1, e)
    | (logs1, none) => runManualAutomationStream chunks logs1

/-! ## Dashboard `getFilteredAndSortedRuns` (src/frontend/components/Dashboard.tsx) -/

/-- One run of the automation history, with the fields
`getFilteredAndSortedRuns` and the dashboard metrics inspect.
`start_time` is modelled as the `getTime()` value of the ISO string. -/
structure AutomationRun where
  run_id : String
  type : String
  status : String
  user_email : Option String
  start_time : Int
  clients_processed : Option Int
  file_size : Option Int
deriving DecidableEq

/-- The dashboard filter state (empty string means "no filter"). -/
structure Filters where
  type : String
  status : String
  user_email : String
deriving DecidableEq

/-- The sortable columns. -/
inductive SortKey where
  | run_id
  | type
  | status
  | user_email
  | start_time
  | clients_processed
  | file_size
deriving DecidableEq

/-- Sort direction. -/
inductive SortDirection where
  | asc
  | desc
deriving DecidableEq

/-- A comparator operand: a string key, a numeric key, or JS `undefined`
(comparisons against `undefined` are false both ways, giving 0). -/
inductive SortVal where
  | s (v : String)
  | n (v : Int)
  | undef
deriving DecidableEq

/-- JS `<` on the comparator operands. -/
def sortValLt (a b : SortVal) : Bool :=
  match a, b with
  | .s x, .s y => decide (x < y)
  | .n x, .n y => decide (x < y)
  | _, _ => false

/-- The per-key comparator operand: `clients_processed || 0`,
`file_size || 0`, `new Date(start_time).getTime()`, else the raw field. -/
def keyVal (k : SortKey) (r : AutomationRun) : SortVal :=
  match k with
  | .run_id => .s r.run_id
  | .type => .s r.type
  | .status => .s r.status
  | .user_email =>
    match r.user_email with
    | some e => .s e
    | none => .undef
  | .start_time => .n r.start_time
  | .clients_processed => .n (r.clients_processed.getD 0)
  | .file_size => .n (r.file_size.getD 0)

/-- The sort comparator of `getFilteredAndSortedRuns`. -/
def runCompare (k : SortKey) (d : SortDirection) (a b : AutomationRun) : Int :=
  let av := keyVal k a
  let bv := keyVal k b
  if sortValLt av bv then (match d with | .asc => -1 | .desc => 1)
  else if sortValLt bv av then (match d with | .asc => 1 | .desc => -1)
  else 0

/-- Stable insertion used to model `Array.prototype.sort` (stable since
ES2019): insert after existing elements that do not compare greater. -/
def insertCmp (cmp : AutomationRun → AutomationRun → Int) (x : AutomationRun) :
    List AutomationRun → List AutomationRun
  | [] => [x]
  | y :: ys => if cmp x y < 0 then x :: y :: ys else y :: insertCmp cmp x ys

/-- Comparator sort over a list (the value `filtered.sort(...)` leaves in
the sorted array). -/
def sortCmp (cmp : AutomationRun → AutomationRun → Int) (l : List AutomationRun) :
    List AutomationRun :=
  l.foldl (fun acc x => insertCmp cmp x acc) []

/-- The component's array heap: JS arrays are mutable objects, so we model
them as cells in a store addressed by allocation order.  `runs` lives at
a fixed reference; `[...runs]` and `.filter` allocate fresh cells; `.sort`
mutates the cell it is called on in place. -/
abbrev Store := List (List AutomationRun)

/-- Read the array at a reference. -/
def getArr (σ : Store) (r : Nat) : List AutomationRun := σ.getD r []

/-- Allocate a fresh array cell. -/
def allocArr (σ : Store) (v : List AutomationRun) : Store × Nat :=
  (σ ++ [v], σ.length)

/-- In-place update of the array at a reference (JS `sort` mutation). -/
def setArr (σ : Store) (r : Nat) (v : List AutomationRun) : Store :=
  σ.set r v

/-- The type filter predicate (`r.type === filters.type`). -/
def filterType (f : Filters) (l : List AutomationRun) : List AutomationRun :=
  l.filter (fun r => r.type == f.type)

/-- The status filter predicate (`r.status === filters.status`). -/
def filterStatus (f : Filters) (l : List AutomationRun) : List AutomationRun :=
  l.filter (fun r => r.status == f.status)

/-- The user filter predicate (`r.user_email === filters.user_email`;
`undefined` never equals a selected e-mail). -/
def filterUser (f : Filters) (l : List AutomationRun) : List AutomationRun :=
  l.filter (fun r => r.user_email == some f.user_email)

/-- `getFilteredAndSortedRuns` as a store program, step for step:
`let filtered = [...runs]` allocates a copy; each enabled filter allocates
a fresh array via `.filter`; `filtered.sort(...)` mutates `filtered`'s own
cell in place; the reference to the final array is returned. -/
def getFilteredAndSortedRuns (σ : Store) (runsRef : Nat) (f : Filters)
    (k : SortKey) (d : SortDirection) : Store × Nat :=
  let p1 := allocArr σ (getArr σ runsRef)
  let p2 := if f.type ≠ "" then allocArr p1.1 (filterType f (getArr p1.1 p1.2)) else p1
  let p3 := if f.status ≠ "" then allocArr p2.1 (filterStatus f (getArr p2.1 p2.2)) else p2
  let p4 := if f.user_email ≠ "" then allocArr p3.1 (filterUser f (getArr p3.1 p3.2)) else p3
  (setArr p4.1 p4.2 (sortCmp (runCompare k d) (getArr p4.1 p4.2)), p4.2)

/-- The pure filter pipeline (what the result array holds before sorting). -/
def applyFilters (f : Filters) (l : List AutomationRun) : List AutomationRun :=
  let l1 := if f.type ≠ "" then filterType f l else l
  let l2 := if f.status ≠ "" then filterStatus f l1 else l1
  if f.user_email ≠ "" then filterUser f l2 else l2

/-- The dashboard metric `successfulRuns`, computed from the unfiltered
`runs` state. -/
def successfulRuns (l : List AutomationRun) : Nat :=
  (l.filter (fun r => r.status == "completed")).length

/-- The dashboard metric `failedRuns`, computed from the unfiltered `runs`
state. -/
def failedRuns (l : List AutomationRun) : Nat :=
  (l.filter (fun r => r.status == "failed")).length

/-! ## Theorems -/

/-- Helper: under an always-transient operation the retry loop uses up its
whole budget and reports exhaustion, having invoked the operation once per
budgeted attempt. -/
theorem retryAux_all_transient {α : Type} (op : Nat → Outcome α)
    (h : ∀ i, ∃ s, op i = .transient s) :
    ∀ remaining made, retryAux op made remaining = (.retriesExhausted, made + remaining) := by
  intro remaining
  induction remaining with
  | zero => intro made; simp [retryAux]
  | succ n ih =>
    intro made
    obtain ⟨s, hs⟩ := h made
    simp only [retryAux, hs]
    rw [ih (made + 1)]
    simp [Prod.ext_iff]
    omega

/-- C3: with `maxAttempts = N` and an always-transient operation,
RetryPolicy invokes the operation exactly `N` times and then reports the
distinguished "retries exhausted" error; a fatal failure on the first call
is propagated immediately after exactly one invocation. -/
theorem c3_retry_policy {α : Type} (N : Nat) (op : Nat → Outcome α) (m : String) :
    ((∀ i, ∃ s, op i = .transient s) →
      retryPolicy N op = (.retriesExhausted, N)) ∧
    (op 0 = .fatal m → 1 ≤ N → retryPolicy N op = (.fatalError m, 1)) := by
  constructor
  · intro h
    unfold retryPolicy
    rw [retryAux_all_transient op h N 0]
    simp
  · intro hf hN
    cases N with
    | zero => omega
    | succ n => simp [retryPolicy, retryAux, hf]

/-- Witness for C3 at `N = 3` with a concrete always-transient operation
and a concrete first-call-fatal operation. -/
theorem c3_witness :
    retryPolicy 3 (fun _ => Outcome.transient (α := Unit) "t") = (.retriesExhausted, 3) ∧
    retryPolicy 3 (fun _ => Outcome.fatal (α := Unit) "boom") = (.fatalError "boom", 1) :=
  ⟨(c3_retry_policy 3 (fun _ => Outcome.transient "t") "boom").1 (fun _ => ⟨"t", rfl⟩),
   (c3_retry_policy 3 (fun _ => Outcome.fatal "boom") "boom").2 rfl (by decide)⟩

/-- C7: completing the Converting stage sets `counters.total` to
`min(recordCount, clientLimit)` when `clientLimit > 0` and to
`recordCount` when `clientLimit = 0`, and moves the Job to `Enriching`. -/
theorem c7_converting_sets_total (j : Job) (rc : Nat) (h : j.status = .converting) :
    ∃ j', jobStep (.convertOk rc) j = some j' ∧
      j'.total = (if 0 < j.clientLimit then min rc j.clientLimit else rc) ∧
      j'.status = .enriching := by
  refine ⟨{ j with status := .enriching, total := clients_to_process rc j.clientLimit },
    by simp [jobStep, h], ?_, rfl⟩
  simp only [clients_to_process]
  rcases Nat.eq_zero_or_pos j.clientLimit with h0 | h0
  · simp [h0]
  · simp [Nat.pos_iff_ne_zero.mp h0, h0]

/-- Witness for C7 on a converting Job with `clientLimit = 3` and a
12-record export. -/
theorem c7_witness :
    ∃ j', jobStep (.convertOk 12)
        { status := .converting, clientLimit := 3, total := 0, processed := 0,
          failed := 0, logs := [], errorMessage := none, artifact := none } = some j' ∧
      j'.total = (if 0 < (3 : Nat) then min 12 3 else 12) ∧
      j'.status = .enriching :=
  c7_converting_sets_total
    { status := .converting, clientLimit := 3, total := 0, processed := 0,
      failed := 0, logs := [], errorMessage := none, artifact := none } 12 rfl

/-- C8: a scheduled trigger submits the last 7 days (weekly) or the last
30 days (monthly) measured from run time, always with `clientLimit = 0`,
and a limit of 0 processes every discovered record. -/
theorem c8_scheduled_trigger (now : Int) :
    (scheduledSubmit .weekly now).endDate = now ∧
    (scheduledSubmit .weekly now).startDate = now - 7 ∧
    (scheduledSubmit .weekly now).maxClients = 0 ∧
    (scheduledSubmit .monthly now).endDate = now ∧
    (scheduledSubmit .monthly now).startDate = now - 30 ∧
    (scheduledSubmit .monthly now).maxClients = 0 ∧
    (∀ k rc, clients_to_process rc (scheduledSubmit k now).maxClients = rc) := by
  refine ⟨rfl, rfl, rfl, rfl, rfl, rfl, ?_⟩
  intro k rc
  cases k <;> simp [scheduledSubmit, clients_to_process]

/-- C4 counterexample: the StepConfigure wizard's "All clients" submission
sends the finite cap 999, not 0, refuting "a submitter requesting all
records submits clientLimit = 0, not any finite cap". -/
theorem c4_counterexample :
    stepConfigureClientLimit "all" = 999 ∧ stepConfigureClientLimit "all" ≠ 0 := by
  constructor <;> decide

/-- C4 (amended): `clientLimit` is a non-negative integer and 0 processes
all discovered records; the select options of StepConfigure submit 5, 10
and — for "All clients" — the finite cap 999 rather than 0. -/
theorem c4_client_limit_amended :
    (∀ rc, clients_to_process rc 0 = rc) ∧
    stepConfigureClientLimit "5" = 5 ∧
    stepConfigureClientLimit "10" = 10 ∧
    stepConfigureClientLimit "all" = 999 ∧
    (0 : Int) ≤ stepConfigureClientLimit "5" ∧
    (0 : Int) ≤ stepConfigureClientLimit "10" ∧
    (0 : Int) ≤ stepConfigureClientLimit "all" := by
  refine ⟨fun rc => by simp [clients_to_process], ?_, ?_, ?_, ?_, ?_, ?_⟩ <;> decide

/-- C2: inside the Enriching loop, a single record exhausting its retries
increments `failed`, leaves `processed` and `total` unchanged, appends a
log entry, and the Job stays in `Enriching` (it never becomes `failed`
because of one record). -/
theorem c2_single_record_failure (j : Job) (msg : String)
    (hst : j.status = .enriching) (hlt : j.processed + j.failed < j.total) :
    ∃ j', jobStep (.recordFailed msg) j = some j' ∧
      j'.failed = j.failed + 1 ∧
      j'.processed = j.processed ∧
      j'.total = j.total ∧
      j'.logs = j.logs ++ [msg] ∧
      j'.status = .enriching ∧
      j'.status ≠ .failed := by
  refine ⟨{ j with failed := j.failed + 1, logs := j.logs ++ [msg] },
    by simp [jobStep, hst, hlt], rfl, rfl, rfl, rfl, hst, ?_⟩
  simp [hst]

/-- Witness for C2 on a concrete enriching Job with one record left. -/
theorem c2_witness :
    ∃ j', jobStep (.recordFailed "lookup failed")
        { status := .enriching, clientLimit := 0, total := 2, processed := 1,
          failed := 0, logs := [], errorMessage := none, artifact := none } = some j' ∧
      j'.failed = 0 + 1 ∧
      j'.processed = 1 ∧
      j'.total = 2 ∧
      j'.logs = [] ++ ["lookup failed"] ∧
      j'.status = .enriching ∧
      j'.status ≠ .failed := by
  have h := c2_single_record_failure
    { status := .enriching, clientLimit := 0, total := 2, processed := 1,
      failed := 0, logs := [], errorMessage := none, artifact := none }
    "lookup failed" rfl (by decide)
  exact h

/-- C6, failing input: the same server bytes — one log entry `"hello"`
followed by the terminal status event — are received exactly once and in
order when each `reader.read()` chunk holds whole lines, but when a read
boundary splits the log line the consumer loop of `runManualAutomation`
hits a `JSON.parse` error on the first fragment and aborts the stream:
the entry is never delivered and the terminal status event is lost, so
the code does not provide the exactly-once delivery the claim states. -/
theorem c6_code_bug_eval :
    "data: \x7b\"log\": \"he" ++ "llo\"\x7d\ndata: \x7b\"status\": \"completed\"\x7d\n" =
      "data: \x7b\"log\": \"hello\"\x7d\ndata: \x7b\"status\": \"completed\"\x7d\n" ∧
    runManualAutomationStream
        ["data: \x7b\"log\": \"hello\"\x7d\ndata: \x7b\"status\": \"completed\"\x7d\n"] [] =
      (["hello"], .completed "completed" none none) ∧
    runManualAutomationStream
        ["data: \x7b\"log\": \"he",
         "llo\"\x7d\ndata: \x7b\"status\": \"completed\"\x7d\n"] [] =
      ([], .parseError) := by
  refine ⟨?_, ?_, ?_⟩ <;> decide

/-- Helper: the bounded re-authentication loop makes at most `remaining`
further attempts. -/
theorem reauthTry_le (reauthOk : Nat → Bool) :
    ∀ remaining made, (reauthTry reauthOk remaining made).1 ≤ made + remaining := by
  intro remaining
  induction remaining with
  | zero => intro made; simp [reauthTry]
  | succ n ih =>
    intro made
    rcases h : reauthOk made with _ | _
    · have hrec := ih (made + 1)
      simp only [reauthTry, h, Bool.false_eq_true, if_false]
      omega
    · simp only [reauthTry, h, if_true]
      omega

/-- C5: `keep_alive` probes exactly when `now - lastActivityAt` exceeds
`idleThreshold`; after `markActivity`, a call within the threshold never
re-probes; on a failed probe it re-authenticates at most 3 times, and when
all 3 attempts fail the session is declared dead, upon which the pipeline
transitions the Job to `Failed`. -/
theorem c5_keep_alive (now now2 : Int) (probeOk : Bool) (reauthOk : Nat → Bool)
    (s : RemoteSession) (j : Job) :
    ((keep_alive now probeOk reauthOk s).probed = true ↔
      s.idleThreshold < now - s.lastActivityAt) ∧
    (now2 - now ≤ s.idleThreshold →
      (keep_alive now2 probeOk reauthOk (markActivity now s)).probed = false) ∧
    ((keep_alive now probeOk reauthOk s).reauthAttempts ≤ 3) ∧
    (s.idleThreshold < now - s.lastActivityAt → probeOk = false →
      (∀ i, reauthOk i = false) →
      (keep_alive now probeOk reauthOk s).dead = true ∧
      (keep_alive now probeOk reauthOk s).reauthAttempts = 3) ∧
    ((keep_alive now probeOk reauthOk s).dead = true → j.status = .enriching →
      ∃ j', jobStep .sessionLost j = some j' ∧ j'.status = .failed) := by
  refine ⟨?_, ?_, ?_, ?_, ?_⟩
  · unfold keep_alive
    split
    · rename_i hidle
      cases probeOk
      · rcases h : reauthTry reauthOk 3 0 with ⟨att, ok⟩
        cases ok <;> simp [h, hidle]
      · simp [hidle]
    · rename_i hidle
      simp [hidle]
  · intro hle
    unfold keep_alive markActivity
    have : ¬ s.idleThreshold < now2 - now := by omega
    simp [this]
  · unfold keep_alive
    split
    · cases probeOk
      · rcases h : reauthTry reauthOk 3 0 with ⟨att, ok⟩
        have hb := reauthTry_le reauthOk 3 0
        rw [h] at hb
        cases ok <;> simpa [h] using hb
      · simp
    · simp
  · intro hidle hpf hall
    subst hpf
    unfold keep_alive
    simp only [if_pos hidle]
    have h3 : reauthTry reauthOk 3 0 = (3, false) := by
      simp [reauthTry, hall 0, hall 1, hall 2]
    simp [h3]
  · intro _ hst
    exact ⟨{ j with status := .failed, errorMessage := some "session lost" },
      by simp [jobStep, hst], rfl⟩

/-- Witness for C5 on a concrete idle session with failing probe and
always-failing re-authentication. -/
theorem c5_witness :
    (keep_alive 10 false (fun _ => false)
        { lastActivityAt := 0, idleThreshold := 5, reloginAttemptCount := 0 }).dead = true ∧
    (keep_alive 12 false (fun _ => false)
        (markActivity 10
          { lastActivityAt := 0, idleThreshold := 5, reloginAttemptCount := 0 })).probed
      = false := by
  have h := c5_keep_alive 10 12 false (fun _ => false)
    { lastActivityAt := 0, idleThreshold := 5, reloginAttemptCount := 0 } (newJob 0)
  exact ⟨(h.2.2.2.1 (by decide) rfl (fun _ => rfl)).1, h.2.1 (by decide)⟩

/-- Strengthened step invariant used for C1: counters are bounded by
`total`, and are still zero before the Enriching stage has begun. -/
def counterInv (j : Job) : Prop :=
  j.processed + j.failed ≤ j.total ∧
    (enrichingBegun j.status = false → j.processed = 0 ∧ j.failed = 0)

/-- Helper: every pipeline step preserves the counter invariant. -/
theorem jobStep_counterInv {j j' : Job} (e : Ev) (h : jobStep e j = some j')
    (hinv : counterInv j) : counterInv j' := by
  obtain ⟨h1, h2⟩ := hinv
  cases e <;> cases hs : j.status <;>
    simp only [jobStep, hs, reduceCtorEq] at h
  all_goals try split at h
  all_goals try exact Option.noConfusion h
  all_goals injection h with h
  all_goals subst h
  all_goals constructor <;> simp_all [enrichingBegun] <;> omega

/-- Helper: once the Enriching stage has begun, any further legal step
leaves `total` unchanged and stays at or after Enriching. -/
theorem jobStep_total_fixed {j j' : Job} (e : Ev) (h : jobStep e j = some j')
    (hb : enrichingBegun j.status = true) :
    j'.total = j.total ∧ enrichingBegun j'.status = true := by
  cases e <;> cases hs : j.status <;>
    simp only [jobStep, hs, reduceCtorEq] at h <;>
    rw [hs] at hb <;> simp only [enrichingBegun, Bool.false_eq_true] at hb
  all_goals try split at h
  all_goals try exact Option.noConfusion h
  all_goals injection h with h
  all_goals subst h
  all_goals simp [enrichingBegun]

/-- Helper: the counter invariant holds in every state reachable from a
state satisfying it. -/
theorem reachable_counterInv {j j' : Job} (h : Reachable j j')
    (hinv : counterInv j) : counterInv j' := by
  induction h with
  | refl => exact hinv
  | tail e _ hstep ih => exact jobStep_counterInv e hstep ih

/-- Helper: `total` is constant along any run from a state at or after
Enriching. -/
theorem reachable_total_fixed {j j' : Job} (h : Reachable j j')
    (hb : enrichingBegun j.status = true) :
    j'.total = j.total ∧ enrichingBegun j'.status = true := by
  induction h with
  | refl => exact ⟨rfl, hb⟩
  | tail e _ hstep ih =>
    obtain ⟨ht, hb1⟩ := ih
    obtain ⟨ht2, hb2⟩ := jobStep_total_fixed e hstep hb1
    exact ⟨ht2.trans ht, hb2⟩

/-- C1: in every state a Job can reach from submission, the counters
satisfy `total ≥ 0`, `processed ≥ 0`, `failed ≥ 0` and
`processed + failed ≤ total`, and from any point at which the Enriching
stage has begun, `total` never changes again. -/
theorem c1_counters_invariant (cl : Nat) (j j' : Job)
    (h : Reachable (newJob cl) j) :
    0 ≤ j.total ∧ 0 ≤ j.processed ∧ 0 ≤ j.failed ∧
    j.processed + j.failed ≤ j.total ∧
    (enrichingBegun j.status = true → Reachable j j' → j'.total = j.total) := by
  refine ⟨Nat.zero_le _, Nat.zero_le _, Nat.zero_le _, ?_, ?_⟩
  · exact (reachable_counterInv h (by simp [counterInv, newJob])).1
  · intro hb hr
    exact (reachable_total_fixed hr hb).1

/-- Witness for C1 at the freshly submitted Job. -/
theorem c1_witness :
    0 ≤ (newJob 0).total ∧ 0 ≤ (newJob 0).processed ∧ 0 ≤ (newJob 0).failed ∧
    (newJob 0).processed + (newJob 0).failed ≤ (newJob 0).total ∧
    (enrichingBegun (newJob 0).status = true → Reachable (newJob 0) (newJob 0) →
      (newJob 0).total = (newJob 0).total) :=
  c1_counters_invariant 0 (newJob 0) (newJob 0) (Reachable.refl _)

/-- C9: StepConfigure's `handleSubmit` reaches `onSuccess` exactly when
the end date is not after today, the start date is not after the end date
and the start date is not more than two years before today; otherwise it
records a non-empty error message; on success the payload carries the two
dates formatted as zero-padded `MM/DD/YYYY` strings (two-digit month and
day fields). -/
theorem c9_step_configure_validation (s e t : CalDate) (cl : String) :
    ((∃ out, handleSubmit s e t cl = .ok out) ↔
      (dateLt t e = false ∧ dateLt e s = false ∧
        dateLt s (subTwoYears t) = false)) ∧
    (∀ out, handleSubmit s e t cl = .ok out →
      out.start_date = formatDate s ∧ out.end_date = formatDate e) ∧
    (∀ msg, handleSubmit s e t cl = .error msg → msg ≠ "") ∧
    (∀ n, n < 100 → (pad2 n).length = 2) := by
  refine ⟨?_, ?_, ?_, ?_⟩
  · cases h1 : dateLt t e <;> cases h2 : dateLt e s <;>
      cases h3 : dateLt s (subTwoYears t) <;>
      simp [handleSubmit, h1, h2, h3]
  · intro out hout
    cases h1 : dateLt t e <;> cases h2 : dateLt e s <;>
      cases h3 : dateLt s (subTwoYears t) <;>
      simp [handleSubmit, h1, h2, h3] at hout
    rw [← hout]
    exact ⟨rfl, rfl⟩
  · intro msg hmsg
    cases h1 : dateLt t e <;> cases h2 : dateLt e s <;>
      cases h3 : dateLt s (subTwoYears t) <;>
      simp [handleSubmit, h1, h2, h3] at hmsg <;>
      rw [← hmsg] <;> decide
  · decide

/-- Witness for C9 on a concrete valid submission. -/
theorem c9_witness :
    ∃ out, handleSubmit ⟨2025, 0, 5⟩ ⟨2025, 0, 10⟩ ⟨2025, 5, 1⟩ "10" = .ok out ∧
      out.start_date = formatDate ⟨2025, 0, 5⟩ ∧
      out.end_date = formatDate ⟨2025, 0, 10⟩ := by
  have h := c9_step_configure_validation ⟨2025, 0, 5⟩ ⟨2025, 0, 10⟩ ⟨2025, 5, 1⟩ "10"
  obtain ⟨out, hout⟩ := h.1.mpr (by decide)
  exact ⟨out, hout, h.2.1 out hout⟩

/-- C10: `getFilteredAndSortedRuns` leaves the component's `runs` array
untouched (the in-place sort hits the spread copy or a filter result,
never the original cell), returns the filtered rows sorted by the chosen
comparator, and therefore the unfiltered dashboard metrics are unchanged
by any filter or sort selection. -/
theorem c10_dashboard_no_mutation (runs : List AutomationRun) (f : Filters)
    (k : SortKey) (d : SortDirection) :
    getArr (getFilteredAndSortedRuns [runs] 0 f k d).1 0 = runs ∧
    getArr (getFilteredAndSortedRuns [runs] 0 f k d).1
        (getFilteredAndSortedRuns [runs] 0 f k d).2 =
      sortCmp (runCompare k d) (applyFilters f runs) ∧
    successfulRuns (getArr (getFilteredAndSortedRuns [runs] 0 f k d).1 0) =
      successfulRuns runs ∧
    failedRuns (getArr (getFilteredAndSortedRuns [runs] 0 f k d).1 0) =
      failedRuns runs ∧
    (getArr (getFilteredAndSortedRuns [runs] 0 f k d).1 0).length = runs.length := by
  have key : getArr (getFilteredAndSortedRuns [runs] 0 f k d).1 0 = runs ∧
      getArr (getFilteredAndSortedRuns [runs] 0 f k d).1
        (getFilteredAndSortedRuns [runs] 0 f k d).2 =
      sortCmp (runCompare k d) (applyFilters f runs) := by
    by_cases h1 : f.type = "" <;> by_cases h2 : f.status = "" <;>
      by_cases h3 : f.user_email = "" <;>
      simp [getFilteredAndSortedRuns, applyFilters, allocArr, getArr, setArr,
        List.set, h1, h2, h3]
  exact ⟨key.1, key.2, by rw [key.1], by rw [key.1], by rw [key.1]⟩

end GenAuto
